import Mathlib

/-!
Verification development for the HELICS message-filter layer: the filter
identity/registration model (FilterInfo registry records), the filter type
classification, the client-facing filter handles, the cloning-filter
controller, the delay-filter dispatch, and the deferred-destruction facility
(DelayedDestructor).  Definitions are shallow embeddings of the C++ sources;
where only a declaration exists in the sources, the behaviour is modelled
from the specification and the doc comment says so.
-/

namespace helics

/-- A message crossing an endpoint: source endpoint name, destination endpoint
name, payload bytes and a virtual-time stamp (times are modelled as rationals). -/
structure Message where
  source : String
  dest : String
  data : List Nat
  time : ℚ
deriving DecidableEq, Repr

/-- The polymorphic per-filter transform contract: `process(message) ->
sequence of zero-or-more messages`. -/
def FilterOperator := Message → List Message

/-- Modelled from the spec: the strong id types (`global_broker_id_t`,
`global_federate_id_t`, `handle_id_t`, `filter_id_t`) are defined outside the
given sources; they are modelled as integers.  The default-constructed
federate id is the invalid sentinel. -/
def invalid_fed_id : Int := -2010000000

/-- Modelled from the spec: the default-constructed handle id sentinel. -/
def invalid_handle_id : Int := -1700000000

/-- Modelled from the spec: the default-constructed filter id sentinel
(`invalid_id_value` in the sources). -/
def invalid_id_value : Int := -1

/-- The routing target sentinel: the pair of default-constructed ids,
`std::pair<global_federate_id_t, handle_id_t> target{global_federate_id_t(),
handle_id_t()}`, denoting "unresolved". -/
def unresolvedTarget : Int × Int := (invalid_fed_id, invalid_handle_id)

/-- The core-side registry record for one filter (class `FilterInfo`):
const identity fields, then the mutable cloning flag, attached operator
(a null `shared_ptr` is `none`) and resolved routing target. -/
structure FilterInfo where
  core_id : Int
  handle : Int
  key : String
  filterTarget : String
  inputType : String
  outputType : String
  dest_filter : Bool
  cloning : Bool
  filterOp : Option FilterOperator
  target : Int × Int

/-- The `FilterInfo` constructor from all fields: the member-initializer list
sets the seven identity fields; `cloning`, `filterOp` and `target` keep their
member defaults (`false`, null, the default-constructed id pair). -/
def FilterInfo.make (core_id_ : Int) (handle_ : Int) (key_ : String)
    (target_ : String) (type_in_ : String) (type_out_ : String)
    (destFilter_ : Bool) : FilterInfo :=
  { core_id := core_id_
    handle := handle_
    key := key_
    filterTarget := target_
    inputType := type_in_
    outputType := type_out_
    dest_filter := destFilter_
    cloning := false
    filterOp := none
    target := unresolvedTarget }

/-- The set of common defined filter types (`enum class defined_filter_types`). -/
inductive defined_filter_types where
  | custom
  | delay
  | randomDelay
  | randomDrop
  | reroute
  | clone
  | unrecognized
deriving DecidableEq, Repr

/-- Character-wise lowering of a string, used for the case-insensitive name
match. -/
def toLowerStr (s : String) : String := String.mk (s.data.map Char.toLower)

/-- Modelled from the spec: the body of `filterTypeFromString` is not in the
given sources (Filters.hpp only declares it); per the spec it maps a
case-insensitive name to one of the six defined kinds and every other string
to the `unrecognized` sentinel, and it never fails. -/
def filterTypeFromString (filterType : String) : defined_filter_types :=
  let lowered := toLowerStr filterType
  if lowered = "custom" then defined_filter_types.custom
  else if lowered = "delay" then defined_filter_types.delay
  else if lowered = "randomdelay" then defined_filter_types.randomDelay
  else if lowered = "randomdrop" then defined_filter_types.randomDrop
  else if lowered = "reroute" then defined_filter_types.reroute
  else if lowered = "clone" then defined_filter_types.clone
  else defined_filter_types.unrecognized

/-- Modelled from the spec: the registry operations that may touch a record
after registration — target resolution against a known endpoint,
configuration (attaching a transform), cloning-flag changes, and removal of
the underlying endpoint (which un-resolves the target).  Their bodies are not
in the given sources; only the record layout is. -/
inductive RegistryOp where
  | resolve (fedId : Int) (handleId : Int)
  | attachOperator (op : FilterOperator)
  | setCloning (b : Bool)
  | removeEndpoint

/-- A resolve operation is valid when it carries the routing target of an
actual endpoint, which is never the default-constructed sentinel pair. -/
def RegistryOp.validResolve : RegistryOp → Prop
  | RegistryOp.resolve f h => (f, h) ≠ unresolvedTarget
  | _ => True

/-- Modelled from the spec: applying one registry operation to a record.
Resolution stores the computed routing target; configuration replaces the
attached operator; a cloning-flag change sets the flag; endpoint removal
resets the target to the unresolved sentinel.  The identity fields are
`const` in the sources and no operation touches them. -/
def applyRegistryOp (rec : FilterInfo) : RegistryOp → FilterInfo
  | RegistryOp.resolve f h => { rec with target := (f, h) }
  | RegistryOp.attachOperator op => { rec with filterOp := some op }
  | RegistryOp.setCloning b => { rec with cloning := b }
  | RegistryOp.removeEndpoint => { rec with target := unresolvedTarget }

/-- A sequence of registry operations applied in order. -/
def runRegistryOps (rec : FilterInfo) (ops : List RegistryOp) : FilterInfo :=
  ops.foldl applyRegistryOp rec

/-- A shared-ownership entry held by the deferred-destruction facility: the
object's identity and the number of counted references still held outside the
facility.  Dropping the facility's reference destroys the object exactly when
no external owner remains — the `shared_ptr` semantics. -/
structure SharedObj where
  objId : Nat
  externalOwners : Nat
deriving DecidableEq, Repr

/-- The `DelayedDestructor` state: the list of shared-ownership entries
awaiting destruction (`ElementsToBeDestroyed`).  Operations return the new
state together with the ids destroyed by that operation. -/
structure DelayedDestructor where
  ElementsToBeDestroyed : List SharedObj
deriving DecidableEq, Repr

/-- The `destroyObjects` operation clears the holding list, dropping the facility's own
references; an entry's object is actually destroyed exactly when it has no
remaining external owner. -/
def destroyObjects (d : DelayedDestructor) : DelayedDestructor × List Nat :=
  (⟨[]⟩,
   (d.ElementsToBeDestroyed.filter
      (fun o => o.externalOwners == 0)).map SharedObj.objId)

/-- The `addObjectsToBeDestroyed` operation appends the entry to the holding
list; it never destroys anything itself. -/
def addObjectsToBeDestroyed (d : DelayedDestructor) (obj : SharedObj) :
    DelayedDestructor × List Nat :=
  (⟨d.ElementsToBeDestroyed ++ [obj]⟩, [])

/-- The `DelayedDestructor` destructor body: it calls `destroyObjects`. -/
def delayedDestructorTeardown (d : DelayedDestructor) :
    DelayedDestructor × List Nat :=
  destroyObjects d

/-- A sample holding list: object 7 with no external owners left, object 8
still owned externally. -/
def sampleDD : DelayedDestructor := ⟨[⟨7, 0⟩, ⟨8, 2⟩]⟩

/-- A sample enqueued entry. -/
def sampleObj : SharedObj := ⟨9, 1⟩

/-- The cloning-filter controller state (class `CloningFilter`): the
source/destination sub-filter id vectors paired with the source/destination
endpoint-name vectors from the sources, plus — modelled from the spec — the
delivery endpoint-name set (held by the clone operation, outside the given
sources) and a fresh-id counter standing for the collaborator's id
generation. -/
structure CloningFilter where
  sourceFilters : List Int
  destFilters : List Int
  sourceEndpoints : List String
  destEndpoints : List String
  deliveryEndpoints : List String
  nextFilterId : Int
deriving DecidableEq, Repr

/-- A freshly constructed cloning-filter controller: all sets empty. -/
def CloningFilter.init : CloningFilter := ⟨[], [], [], [], [], 0⟩

/-- Modelled from the spec: `addSourceTarget` — if the name is not already
tracked, create an ordinary source sub-filter for it, record its id and add
the name; otherwise no-op. -/
def addSourceTarget (cf : CloningFilter) (sourceName : String) : CloningFilter :=
  if sourceName ∈ cf.sourceEndpoints then cf
  else
    { cf with
      sourceFilters := cf.sourceFilters ++ [cf.nextFilterId]
      sourceEndpoints := cf.sourceEndpoints ++ [sourceName]
      nextFilterId := cf.nextFilterId + 1 }

/-- Modelled from the spec: `removeSourceTarget` — if present, remove the
id/name pair; if absent, no-op, never an error. -/
def removeSourceTarget (cf : CloningFilter) (sourceName : String) : CloningFilter :=
  if sourceName ∈ cf.sourceEndpoints then
    { cf with
      sourceFilters :=
        cf.sourceFilters.eraseIdx (cf.sourceEndpoints.indexOf sourceName)
      sourceEndpoints := cf.sourceEndpoints.erase sourceName }
  else cf

/-- Modelled from the spec: `addDestinationTarget`, the destination analogue
of `addSourceTarget`. -/
def addDestinationTarget (cf : CloningFilter) (destinationName : String) :
    CloningFilter :=
  if destinationName ∈ cf.destEndpoints then cf
  else
    { cf with
      destFilters := cf.destFilters ++ [cf.nextFilterId]
      destEndpoints := cf.destEndpoints ++ [destinationName]
      nextFilterId := cf.nextFilterId + 1 }

/-- Modelled from the spec: `removeDestinationTarget`, the destination
analogue of `removeSourceTarget`. -/
def removeDestinationTarget (cf : CloningFilter) (destinationName : String) :
    CloningFilter :=
  if destinationName ∈ cf.destEndpoints then
    { cf with
      destFilters :=
        cf.destFilters.eraseIdx (cf.destEndpoints.indexOf destinationName)
      destEndpoints := cf.destEndpoints.erase destinationName }
  else cf

/-- Modelled from the spec: `addDeliveryEndpoint` — maintain the delivery set
with the idempotent-add contract; no id resolution is needed. -/
def addDeliveryEndpoint (cf : CloningFilter) (endpoint : String) : CloningFilter :=
  if endpoint ∈ cf.deliveryEndpoints then cf
  else { cf with deliveryEndpoints := cf.deliveryEndpoints ++ [endpoint] }

/-- Modelled from the spec: `removeDeliveryEndpoint` — remove if present,
no-op otherwise. -/
def removeDeliveryEndpoint (cf : CloningFilter) (endpoint : String) :
    CloningFilter :=
  if endpoint ∈ cf.deliveryEndpoints then
    { cf with deliveryEndpoints := cf.deliveryEndpoints.erase endpoint }
  else cf

/-- One add-or-remove call on a single tracked name set. -/
inductive TargetOp where
  | add (name : String)
  | remove (name : String)
deriving DecidableEq, Repr

/-- The effect of one add/remove call on a bare name set: idempotent add at
the back, erase-if-present remove.  Each controller operation acts on its
name vector exactly like this. -/
def applyNameOp (l : List String) : TargetOp → List String
  | TargetOp.add n => if n ∈ l then l else l ++ [n]
  | TargetOp.remove n => if n ∈ l then l.erase n else l

/-- A source-target call sequence applied to the controller. -/
def applySourceOp (cf : CloningFilter) : TargetOp → CloningFilter
  | TargetOp.add n => addSourceTarget cf n
  | TargetOp.remove n => removeSourceTarget cf n

/-- A destination-target call sequence applied to the controller. -/
def applyDestOp (cf : CloningFilter) : TargetOp → CloningFilter
  | TargetOp.add n => addDestinationTarget cf n
  | TargetOp.remove n => removeDestinationTarget cf n

/-- A delivery-endpoint call sequence applied to the controller. -/
def applyDeliveryOp (cf : CloningFilter) : TargetOp → CloningFilter
  | TargetOp.add n => addDeliveryEndpoint cf n
  | TargetOp.remove n => removeDeliveryEndpoint cf n

/-- Run a sequence of source-target calls. -/
def runSourceOps (cf : CloningFilter) (ops : List TargetOp) : CloningFilter :=
  ops.foldl applySourceOp cf

/-- Run a sequence of destination-target calls. -/
def runDestOps (cf : CloningFilter) (ops : List TargetOp) : CloningFilter :=
  ops.foldl applyDestOp cf

/-- Run a sequence of delivery-endpoint calls. -/
def runDeliveryOps (cf : CloningFilter) (ops : List TargetOp) : CloningFilter :=
  ops.foldl applyDeliveryOp cf

/-- The specification-side characterization: a name is tracked after a call
sequence exactly when some add of it is not followed by a remove of it
("the set of names added and not subsequently removed"). -/
def netTracked (ops : List TargetOp) (init : Bool) (name : String) : Bool :=
  ops.foldl
    (fun b op =>
      match op with
      | TargetOp.add n => if n = name then true else b
      | TargetOp.remove n => if n = name then false else b)
    init

/-- One controller call, in any of the three categories. -/
inductive CloneOp where
  | src (op : TargetOp)
  | dst (op : TargetOp)
  | deliv (op : TargetOp)
deriving DecidableEq, Repr

/-- Apply one controller call. -/
def applyCloneOp (cf : CloningFilter) : CloneOp → CloningFilter
  | CloneOp.src op => applySourceOp cf op
  | CloneOp.dst op => applyDestOp cf op
  | CloneOp.deliv op => applyDeliveryOp cf op

/-- Run a sequence of controller calls. -/
def runCloneOps (cf : CloningFilter) (ops : List CloneOp) : CloningFilter :=
  ops.foldl applyCloneOp cf

/-- The controller invariant: the source id vector and source name vector
have equal length with positionally corresponding entries (both
duplicate-free, ids below the fresh-id counter), likewise for the
destination vectors, and the delivery set has no duplicate names. -/
def CloningInvariant (cf : CloningFilter) : Prop :=
  cf.sourceFilters.length = cf.sourceEndpoints.length ∧
  cf.sourceEndpoints.Nodup ∧
  cf.sourceFilters.Nodup ∧
  (∀ i ∈ cf.sourceFilters, i < cf.nextFilterId) ∧
  cf.destFilters.length = cf.destEndpoints.length ∧
  cf.destEndpoints.Nodup ∧
  cf.destFilters.Nodup ∧
  (∀ i ∈ cf.destFilters, i < cf.nextFilterId) ∧
  cf.deliveryEndpoints.Nodup

/-- Modelled from the spec: the read interface of the collaborator (core)
that a handle consults by id for its read-only queries. -/
structure Core where
  filterTargetOf : Int → String
  filterNameOf : Int → String
  filterInputTypeOf : Int → String
  filterOutputTypeOf : Int → String

/-- The per-kind operations object attached to a filter
(`FilterOperations`): its kind and its named numeric/string properties. -/
structure FilterOperations where
  kind : defined_filter_types
  numericProps : List (String × ℚ)
  stringProps : List (String × String)
deriving DecidableEq, Repr

/-- The client-facing filter handle (class `Filter`): a possibly-null
collaborator reference, the core handle id, the federate-facing filter id
and the possibly-null attached operations object.  The target endpoint name
is held core-side in the C++ code and recorded here for dispatch
association. -/
structure Filter where
  corePtr : Option Core
  id : Int
  fid : Int
  filtOp : Option FilterOperations
  targetEndpoint : String

/-- A default-constructed handle: no collaborator, sentinel ids, no attached
operations object. -/
def Filter.defaultHandle : Filter :=
  { corePtr := none
    id := invalid_handle_id
    fid := invalid_id_value
    filtOp := none
    targetEndpoint := "" }

/-- Modelled from the spec: `getTarget` — resolved through the collaborator
by id; empty-string default when the handle holds no collaborator. -/
def Filter.getTarget (f : Filter) : String :=
  match f.corePtr with
  | none => ""
  | some c => c.filterTargetOf f.id

/-- Modelled from the spec: `getName` — resolved through the collaborator by
id; empty-string default when the handle holds no collaborator. -/
def Filter.getName (f : Filter) : String :=
  match f.corePtr with
  | none => ""
  | some c => c.filterNameOf f.id

/-- Modelled from the spec: `getInputType` — resolved through the
collaborator by id; empty-string default when invalid. -/
def Filter.getInputType (f : Filter) : String :=
  match f.corePtr with
  | none => ""
  | some c => c.filterInputTypeOf f.id

/-- Modelled from the spec: `getOutputType` — resolved through the
collaborator by id; empty-string default when invalid. -/
def Filter.getOutputType (f : Filter) : String :=
  match f.corePtr with
  | none => ""
  | some c => c.filterOutputTypeOf f.id

/-- Record a named numeric property on an operations object. -/
def FilterOperations.setNumeric (fo : FilterOperations) (property : String)
    (val : ℚ) : FilterOperations :=
  { fo with numericProps := (property, val) :: fo.numericProps }

/-- Record a named string property on an operations object. -/
def FilterOperations.setStringProp (fo : FilterOperations) (property : String)
    (val : String) : FilterOperations :=
  { fo with stringProps := (property, val) :: fo.stringProps }

/-- Modelled from the spec: `set` forwards a named numeric property to the
attached operations object; no-op when none is attached — not an error. -/
def Filter.set (f : Filter) (property : String) (val : ℚ) : Filter :=
  match f.filtOp with
  | none => f
  | some fo => { f with filtOp := some (fo.setNumeric property val) }

/-- Modelled from the spec: `setString` forwards a named string property to
the attached operations object; no-op when none is attached. -/
def Filter.setString (f : Filter) (property : String) (val : String) : Filter :=
  match f.filtOp with
  | none => f
  | some fo => { f with filtOp := some (fo.setStringProp property val) }

/-- Modelled from the spec: `setOperator` issues a replace-transform request
to the collaborator; with no collaborator it issues nothing and leaves the
handle unchanged. -/
def Filter.setOperator (f : Filter) (mo : FilterOperator) :
    Filter × Option (Int × FilterOperator) :=
  match f.corePtr with
  | none => (f, none)
  | some _ => (f, some (f.id, mo))

/-- Modelled from the spec: `make_source_filter` constructs the handle
through the collaborator and attaches the matching built-in operations
object; no attachment for custom/unrecognized. -/
def make_source_filter (type : defined_filter_types) (cr : Core)
    (target : String) (name : String) : Filter :=
  { corePtr := some cr
    id := 0
    fid := 0
    filtOp :=
      match type with
      | defined_filter_types.custom => none
      | defined_filter_types.unrecognized => none
      | t => some { kind := t, numericProps := [], stringProps := [] }
    targetEndpoint := target }

/-- Look up a named numeric property of an operations object, defaulting
to zero. -/
def getNumericProp (fo : FilterOperations) (property : String) : ℚ :=
  ((fo.numericProps.lookup property).getD 0)

/-- A message re-enqueued for scheduled redelivery: the due virtual time,
the unchanged message and its remaining chain position. -/
structure PendingDelivery where
  dueTime : ℚ
  msg : Message
  remainingChain : List FilterOperations
deriving DecidableEq, Repr

/-- Modelled from the spec: a delay-kind operation computes the due virtual
time (arrival time plus its "delay" property) and re-enqueues the message
for delivery at that time, unchanged and with its remaining chain position
preserved — scheduled redelivery, not blocking. -/
def applyDelayFilter (fo : FilterOperations) (rest : List FilterOperations)
    (arrival : ℚ) (m : Message) : PendingDelivery :=
  { dueTime := arrival + getNumericProp fo "delay"
    msg := m
    remainingChain := rest }

/-- Modelled from the spec: cloning dispatch — when a message crosses a
tracked endpoint the controller leaves the message's normal path unchanged
and, for every name currently in the delivery set, produces one independent
duplicate of the (possibly already-filtered) message addressed to that
delivery endpoint. -/
def cloneDispatch (cf : CloningFilter) (m : Message) : Message × List Message :=
  (m, cf.deliveryEndpoints.map (fun d => { m with dest := d }))

/-- Replace a message's payload — the mutation used to check that duplicates
are independent copies. -/
def withPayload (m : Message) (p : List Nat) : Message := { m with data := p }

/-- The claim's controller: tracking source endpoint "S" with delivery set
consisting of "A", "B" and "C". -/
def sampleCloningController : CloningFilter :=
  addDeliveryEndpoint
    (addDeliveryEndpoint
      (addDeliveryEndpoint (addSourceTarget CloningFilter.init "S") "A") "B")
    "C"

/-- A sample message crossing "S". -/
def sampleMessage : Message :=
  { source := "S", dest := "D", data := [1, 2, 3], time := 0 }

/-- Claim C10: every `FilterInfo` freshly constructed via its constructor
starts with the cloning flag `false`, no attached operator, and the routing
target equal to the unresolved sentinel pair, regardless of the constructor
arguments; the identity fields take the supplied arguments. -/
theorem FilterInfo_make_defaults (core_id_ handle_ : Int)
    (key_ target_ type_in_ type_out_ : String) (destFilter_ : Bool) :
    (FilterInfo.make core_id_ handle_ key_ target_ type_in_ type_out_
        destFilter_).cloning = false ∧
    (FilterInfo.make core_id_ handle_ key_ target_ type_in_ type_out_
        destFilter_).filterOp = none ∧
    (FilterInfo.make core_id_ handle_ key_ target_ type_in_ type_out_
        destFilter_).target = unresolvedTarget ∧
    (FilterInfo.make core_id_ handle_ key_ target_ type_in_ type_out_
        destFilter_).core_id = core_id_ ∧
    (FilterInfo.make core_id_ handle_ key_ target_ type_in_ type_out_
        destFilter_).handle = handle_ ∧
    (FilterInfo.make core_id_ handle_ key_ target_ type_in_ type_out_
        destFilter_).key = key_ ∧
    (FilterInfo.make core_id_ handle_ key_ target_ type_in_ type_out_
        destFilter_).dest_filter = destFilter_ := by
  refine ⟨rfl, rfl, rfl, rfl, rfl, rfl, rfl⟩

/-- Claim C2: `filterTypeFromString` is total — for every input it returns one
of the seven enumerators — it matches each of the six defined names
case-insensitively, and every string matching none of them yields the
`unrecognized` sentinel. -/
theorem filterTypeFromString_total (s : String) :
    (filterTypeFromString s = defined_filter_types.custom ∨
     filterTypeFromString s = defined_filter_types.delay ∨
     filterTypeFromString s = defined_filter_types.randomDelay ∨
     filterTypeFromString s = defined_filter_types.randomDrop ∨
     filterTypeFromString s = defined_filter_types.reroute ∨
     filterTypeFromString s = defined_filter_types.clone ∨
     filterTypeFromString s = defined_filter_types.unrecognized) ∧
    (toLowerStr s = "custom" →
      filterTypeFromString s = defined_filter_types.custom) ∧
    (toLowerStr s = "delay" →
      filterTypeFromString s = defined_filter_types.delay) ∧
    (toLowerStr s = "randomdelay" →
      filterTypeFromString s = defined_filter_types.randomDelay) ∧
    (toLowerStr s = "randomdrop" →
      filterTypeFromString s = defined_filter_types.randomDrop) ∧
    (toLowerStr s = "reroute" →
      filterTypeFromString s = defined_filter_types.reroute) ∧
    (toLowerStr s = "clone" →
      filterTypeFromString s = defined_filter_types.clone) ∧
    (toLowerStr s ≠ "custom" → toLowerStr s ≠ "delay" → toLowerStr s ≠ "randomdelay" →
     toLowerStr s ≠ "randomdrop" → toLowerStr s ≠ "reroute" → toLowerStr s ≠ "clone" →
      filterTypeFromString s = defined_filter_types.unrecognized) := by
  unfold filterTypeFromString
  by_cases h1 : toLowerStr s = "custom" <;>
    by_cases h2 : toLowerStr s = "delay" <;>
      by_cases h3 : toLowerStr s = "randomdelay" <;>
        by_cases h4 : toLowerStr s = "randomdrop" <;>
          by_cases h5 : toLowerStr s = "reroute" <;>
            by_cases h6 : toLowerStr s = "clone" <;>
              simp [h1, h2, h3, h4, h5, h6]

/-- Concrete instance of claim C2: a name in mixed case maps to its kind and an
unknown name maps to the sentinel. -/
theorem filterTypeFromString_total_witness :
    filterTypeFromString "ReRoute" = defined_filter_types.reroute ∧
    filterTypeFromString "bogus" = defined_filter_types.unrecognized := by
  refine ⟨(filterTypeFromString_total "ReRoute").2.2.2.2.2.1 (by decide), ?_⟩
  exact (filterTypeFromString_total "bogus").2.2.2.2.2.2.2
    (by decide) (by decide) (by decide) (by decide) (by decide) (by decide)

/-- Helper: one registry operation that is not an endpoint removal and whose
resolve payload is valid keeps a resolved target resolved. -/
theorem applyRegistryOp_target_resolved (rec : FilterInfo) (op : RegistryOp)
    (hv : op.validResolve) (hnr : op ≠ RegistryOp.removeEndpoint)
    (h : rec.target ≠ unresolvedTarget) :
    (applyRegistryOp rec op).target ≠ unresolvedTarget := by
  cases op with
  | resolve f hh => exact hv
  | attachOperator o => exact h
  | setCloning b => exact h
  | removeEndpoint => exact absurd rfl hnr

/-- Claim C6: the default-constructed routing target is the unresolved
sentinel pair, and resolution is monotonic — in any sequence of registry
operations with valid resolve payloads and no removal of the underlying
endpoint, a record whose target is resolved never returns to the unresolved
sentinel. -/
theorem routingTarget_resolution_monotonic (core_id_ handle_ : Int)
    (key_ target_ type_in_ type_out_ : String) (destFilter_ : Bool)
    (rec : FilterInfo) (ops : List RegistryOp)
    (hv : ∀ op ∈ ops, op.validResolve)
    (hnr : RegistryOp.removeEndpoint ∉ ops)
    (hres : rec.target ≠ unresolvedTarget) :
    (FilterInfo.make core_id_ handle_ key_ target_ type_in_ type_out_
        destFilter_).target = unresolvedTarget ∧
    (runRegistryOps rec ops).target ≠ unresolvedTarget := by
  refine ⟨rfl, ?_⟩
  induction ops generalizing rec with
  | nil => exact hres
  | cons op rest ih =>
    have hv1 : op.validResolve := hv op (List.mem_cons_self op rest)
    have hnr1 : op ≠ RegistryOp.removeEndpoint := by
      intro hcontra
      exact hnr (hcontra ▸ List.mem_cons_self op rest)
    have hv2 : ∀ o ∈ rest, o.validResolve := fun o ho =>
      hv o (List.mem_cons_of_mem op ho)
    have hnr2 : RegistryOp.removeEndpoint ∉ rest := fun hmem =>
      hnr (List.mem_cons_of_mem op hmem)
    exact ih (applyRegistryOp rec op) hv2 hnr2
      (applyRegistryOp_target_resolved rec op hv1 hnr1 hres)

/-- Concrete instance of claim C6: a record resolved to the endpoint pair
`(3, 4)` stays resolved across an attach, a cloning-flag change and a
further resolution. -/
theorem routingTarget_resolution_monotonic_witness :
    (runRegistryOps
        (applyRegistryOp (FilterInfo.make 1 2 "k" "t" "" "" false)
          (RegistryOp.resolve 3 4))
        [RegistryOp.setCloning true, RegistryOp.resolve 5 6]).target ≠
      unresolvedTarget := by
  refine (routingTarget_resolution_monotonic 1 2 "k" "t" "" "" false _ _
    ?_ ?_ ?_).2
  · intro op hop
    simp only [List.mem_cons, List.mem_singleton] at hop
    rcases hop with h | h | h
    · exact h ▸ trivial
    · subst h
      simp [RegistryOp.validResolve, unresolvedTarget, invalid_fed_id,
        invalid_handle_id]
    · cases h
  · simp
  · simp [applyRegistryOp, FilterInfo.make, unresolvedTarget, invalid_fed_id,
      invalid_handle_id]

/-- Claim C7: the identity fields of a registry record — owning-core id,
handle id, key, target endpoint name, input type, output type, destination
flag — are never mutated by any sequence of registry operations (resolution,
configuration, cloning-flag changes, endpoint removal). -/
theorem filterIdentity_immutable (rec : FilterInfo) (ops : List RegistryOp) :
    (runRegistryOps rec ops).core_id = rec.core_id ∧
    (runRegistryOps rec ops).handle = rec.handle ∧
    (runRegistryOps rec ops).key = rec.key ∧
    (runRegistryOps rec ops).filterTarget = rec.filterTarget ∧
    (runRegistryOps rec ops).inputType = rec.inputType ∧
    (runRegistryOps rec ops).outputType = rec.outputType ∧
    (runRegistryOps rec ops).dest_filter = rec.dest_filter := by
  induction ops generalizing rec with
  | nil => exact ⟨rfl, rfl, rfl, rfl, rfl, rfl, rfl⟩
  | cons op rest ih =>
    have hstep : (applyRegistryOp rec op).core_id = rec.core_id ∧
        (applyRegistryOp rec op).handle = rec.handle ∧
        (applyRegistryOp rec op).key = rec.key ∧
        (applyRegistryOp rec op).filterTarget = rec.filterTarget ∧
        (applyRegistryOp rec op).inputType = rec.inputType ∧
        (applyRegistryOp rec op).outputType = rec.outputType ∧
        (applyRegistryOp rec op).dest_filter = rec.dest_filter := by
      cases op <;> exact ⟨rfl, rfl, rfl, rfl, rfl, rfl, rfl⟩
    have htail := ih (applyRegistryOp rec op)
    simp only [runRegistryOps, List.foldl_cons] at htail ⊢
    exact ⟨htail.1.trans hstep.1, htail.2.1.trans hstep.2.1,
      htail.2.2.1.trans hstep.2.2.1, htail.2.2.2.1.trans hstep.2.2.2.1,
      htail.2.2.2.2.1.trans hstep.2.2.2.2.1,
      htail.2.2.2.2.2.1.trans hstep.2.2.2.2.2.1,
      htail.2.2.2.2.2.2.trans hstep.2.2.2.2.2.2⟩

/-- Claim C5: enqueue appends to the holding list and never destroys;
`destroyObjects` clears the list, destroying exactly the entries with no
remaining external owner; it is idempotent on the empty list (running it
again destroys nothing and leaves the list empty); and teardown invokes
`destroyObjects`, so no enqueued entry outlives the facility. -/
theorem delayedDestructor_reclaim_sole_release (d : DelayedDestructor)
    (obj : SharedObj) (entry : SharedObj) (i : Nat)
    (hentry : entry ∈ d.ElementsToBeDestroyed)
    (hi : i ∈ (destroyObjects d).2) :
    (addObjectsToBeDestroyed d obj).1.ElementsToBeDestroyed =
      d.ElementsToBeDestroyed ++ [obj] ∧
    (addObjectsToBeDestroyed d obj).2 = [] ∧
    (destroyObjects d).1.ElementsToBeDestroyed = [] ∧
    (entry.externalOwners = 0 → entry.objId ∈ (destroyObjects d).2) ∧
    (∃ e ∈ d.ElementsToBeDestroyed, e.objId = i ∧ e.externalOwners = 0) ∧
    destroyObjects (destroyObjects d).1 = ((destroyObjects d).1, []) ∧
    delayedDestructorTeardown d = destroyObjects d ∧
    (delayedDestructorTeardown d).1.ElementsToBeDestroyed = [] := by
  refine ⟨rfl, rfl, rfl, ?_, ?_, rfl, rfl, rfl⟩
  · intro hzero
    simp only [destroyObjects, List.mem_map]
    exact ⟨entry, List.mem_filter.mpr ⟨hentry, by simp [hzero]⟩, rfl⟩
  · simp only [destroyObjects, List.mem_map] at hi
    obtain ⟨e, he, heq⟩ := hi
    have hmem := List.mem_filter.mp he
    refine ⟨e, hmem.1, heq, ?_⟩
    have := hmem.2
    simpa using this

/-- Concrete instance of claim C5: one entry with no external owner and one
with a live external owner; reclaiming destroys exactly the former. -/
theorem delayedDestructor_reclaim_sole_release_witness :
    (⟨7, 0⟩ : SharedObj) ∈ sampleDD.ElementsToBeDestroyed ∧
    7 ∈ (destroyObjects sampleDD).2 ∧
    (addObjectsToBeDestroyed sampleDD sampleObj).1.ElementsToBeDestroyed =
      sampleDD.ElementsToBeDestroyed ++ [sampleObj] ∧
    (destroyObjects sampleDD).1.ElementsToBeDestroyed = [] ∧
    (delayedDestructorTeardown sampleDD).1.ElementsToBeDestroyed = [] := by
  have h := delayedDestructor_reclaim_sole_release sampleDD sampleObj
    ⟨7, 0⟩ 7 (by decide) (by decide)
  exact ⟨by decide, by decide, h.1, h.2.2.1, h.2.2.2.2.2.2.2⟩

/-- Helper: one add/remove call on a duplicate-free name set tracks membership
exactly as the net-adds-minus-removes characterization, and keeps the set
duplicate-free. -/
theorem mem_applyNameOp (l : List String) (op : TargetOp) (name : String)
    (hnd : l.Nodup) :
    (name ∈ applyNameOp l op ↔
      netTracked [op] (decide (name ∈ l)) name = true) ∧
    (applyNameOp l op).Nodup := by
  cases op with
  | add n =>
    by_cases hmem : n ∈ l
    · refine ⟨?_, by simpa [applyNameOp, hmem] using hnd⟩
      simp only [applyNameOp, if_pos hmem, netTracked, List.foldl_cons,
        List.foldl_nil]
      by_cases he : n = name
      · subst he; simp [hmem]
      · simp [he]
    · refine ⟨?_, ?_⟩
      · simp only [applyNameOp, if_neg hmem, netTracked, List.foldl_cons,
          List.foldl_nil, List.mem_append, List.mem_singleton]
        by_cases he : n = name
        · subst he; simp
        · rw [if_neg he]
          simp only [decide_eq_true_eq]
          constructor
          · rintro (h | h)
            · exact h
            · exact absurd h.symm he
          · exact Or.inl
      · simp only [applyNameOp, if_neg hmem]
        exact hnd.append (List.nodup_singleton n)
          (List.disjoint_singleton.mpr hmem)
  | remove n =>
    by_cases hmem : n ∈ l
    · refine ⟨?_, by simpa [applyNameOp, hmem] using hnd.erase n⟩
      simp only [applyNameOp, if_pos hmem, netTracked, List.foldl_cons,
        List.foldl_nil]
      by_cases he : n = name
      · subst he
        simp only [if_pos rfl]
        constructor
        · intro hc
          exact absurd rfl (hnd.mem_erase_iff.mp hc).1
        · intro hc; cases hc
      · simp only [if_neg he]
        rw [hnd.mem_erase_iff]
        simp only [decide_eq_true_eq]
        constructor
        · exact fun h => h.2
        · exact fun h => ⟨fun hc => he hc.symm, h⟩
    · refine ⟨?_, by simpa [applyNameOp, hmem] using hnd⟩
      simp only [applyNameOp, if_neg hmem, netTracked, List.foldl_cons,
        List.foldl_nil]
      by_cases he : n = name
      · subst he; simp [hmem]
      · simp [he]

/-- Helper: the net-adds-minus-removes characterization over a whole call
sequence on a bare duplicate-free name set. -/
theorem mem_foldl_applyNameOp (ops : List TargetOp) (l : List String)
    (name : String) (hnd : l.Nodup) :
    (name ∈ ops.foldl applyNameOp l ↔
      netTracked ops (decide (name ∈ l)) name = true) ∧
    (ops.foldl applyNameOp l).Nodup := by
  induction ops generalizing l with
  | nil =>
    refine ⟨?_, hnd⟩
    simp [netTracked]
  | cons op rest ih =>
    have hstep := mem_applyNameOp l op name hnd
    have htail := ih (applyNameOp l op) hstep.2
    refine ⟨?_, by simpa [List.foldl_cons] using htail.2⟩
    rw [List.foldl_cons]
    rw [htail.1]
    have hdec : decide (name ∈ applyNameOp l op) =
        netTracked [op] (decide (name ∈ l)) name := by
      calc decide (name ∈ applyNameOp l op)
          = decide (netTracked [op] (decide (name ∈ l)) name = true) :=
            decide_eq_decide.mpr hstep.1
        _ = netTracked [op] (decide (name ∈ l)) name := by simp
    rw [hdec]
    simp [netTracked]

/-- Helper: each controller source-target call acts on the source
endpoint-name vector exactly as the bare name-set update. -/
theorem sourceEndpoints_applySourceOp (cf : CloningFilter) (op : TargetOp) :
    (applySourceOp cf op).sourceEndpoints =
      applyNameOp cf.sourceEndpoints op := by
  cases op with
  | add n =>
    simp only [applySourceOp, addSourceTarget, applyNameOp]
    split <;> rfl
  | remove n =>
    simp only [applySourceOp, removeSourceTarget, applyNameOp]
    split <;> rfl

/-- Helper: each controller destination-target call acts on the destination
endpoint-name vector exactly as the bare name-set update. -/
theorem destEndpoints_applyDestOp (cf : CloningFilter) (op : TargetOp) :
    (applyDestOp cf op).destEndpoints = applyNameOp cf.destEndpoints op := by
  cases op with
  | add n =>
    simp only [applyDestOp, addDestinationTarget, applyNameOp]
    split <;> rfl
  | remove n =>
    simp only [applyDestOp, removeDestinationTarget, applyNameOp]
    split <;> rfl

/-- Helper: each controller delivery-endpoint call acts on the delivery
name set exactly as the bare name-set update. -/
theorem deliveryEndpoints_applyDeliveryOp (cf : CloningFilter) (op : TargetOp) :
    (applyDeliveryOp cf op).deliveryEndpoints =
      applyNameOp cf.deliveryEndpoints op := by
  cases op with
  | add n =>
    simp only [applyDeliveryOp, addDeliveryEndpoint, applyNameOp]
    split <;> rfl
  | remove n =>
    simp only [applyDeliveryOp, removeDeliveryEndpoint, applyNameOp]
    split <;> rfl

/-- Helper: a whole source-target call sequence acts on the source
endpoint-name vector as the folded bare name-set updates. -/
theorem sourceEndpoints_runSourceOps (cf : CloningFilter) (ops : List TargetOp) :
    (runSourceOps cf ops).sourceEndpoints =
      ops.foldl applyNameOp cf.sourceEndpoints := by
  induction ops generalizing cf with
  | nil => rfl
  | cons op rest ih =>
    simp only [runSourceOps, List.foldl_cons] at *
    rw [ih (applySourceOp cf op), sourceEndpoints_applySourceOp]

/-- Helper: a whole destination-target call sequence acts on the destination
endpoint-name vector as the folded bare name-set updates. -/
theorem destEndpoints_runDestOps (cf : CloningFilter) (ops : List TargetOp) :
    (runDestOps cf ops).destEndpoints =
      ops.foldl applyNameOp cf.destEndpoints := by
  induction ops generalizing cf with
  | nil => rfl
  | cons op rest ih =>
    simp only [runDestOps, List.foldl_cons] at *
    rw [ih (applyDestOp cf op), destEndpoints_applyDestOp]

/-- Helper: a whole delivery-endpoint call sequence acts on the delivery
name set as the folded bare name-set updates. -/
theorem deliveryEndpoints_runDeliveryOps (cf : CloningFilter)
    (ops : List TargetOp) :
    (runDeliveryOps cf ops).deliveryEndpoints =
      ops.foldl applyNameOp cf.deliveryEndpoints := by
  induction ops generalizing cf with
  | nil => rfl
  | cons op rest ih =>
    simp only [runDeliveryOps, List.foldl_cons] at *
    rw [ih (applyDeliveryOp cf op), deliveryEndpoints_applyDeliveryOp]

/-- Claim C4: for every sequence of add/remove calls on a fresh cloning
controller, the tracked source-endpoint-name set equals the set of names
added and not subsequently removed; adding a present name and removing an
absent name are no-ops; and the same holds for the destination-target and
delivery-endpoint operations. -/
theorem cloning_target_set_semantics (ops : List TargetOp) (name : String)
    (cf : CloningFilter) :
    (name ∈ (runSourceOps CloningFilter.init ops).sourceEndpoints ↔
      netTracked ops false name = true) ∧
    (name ∈ (runDestOps CloningFilter.init ops).destEndpoints ↔
      netTracked ops false name = true) ∧
    (name ∈ (runDeliveryOps CloningFilter.init ops).deliveryEndpoints ↔
      netTracked ops false name = true) ∧
    (name ∈ cf.sourceEndpoints → addSourceTarget cf name = cf) ∧
    (name ∉ cf.sourceEndpoints → removeSourceTarget cf name = cf) ∧
    (name ∈ cf.destEndpoints → addDestinationTarget cf name = cf) ∧
    (name ∉ cf.destEndpoints → removeDestinationTarget cf name = cf) ∧
    (name ∈ cf.deliveryEndpoints → addDeliveryEndpoint cf name = cf) ∧
    (name ∉ cf.deliveryEndpoints → removeDeliveryEndpoint cf name = cf) := by
  refine ⟨?_, ?_, ?_,
    fun h => if_pos h, fun h => if_neg h, fun h => if_pos h,
    fun h => if_neg h, fun h => if_pos h, fun h => if_neg h⟩
  · rw [sourceEndpoints_runSourceOps]
    simpa using (mem_foldl_applyNameOp ops [] name List.nodup_nil).1
  · rw [destEndpoints_runDestOps]
    simpa using (mem_foldl_applyNameOp ops [] name List.nodup_nil).1
  · rw [deliveryEndpoints_runDeliveryOps]
    simpa using (mem_foldl_applyNameOp ops [] name List.nodup_nil).1

/-- Concrete instance of claim C4: after add "S", add "S", remove "X" the
source set tracks "S"; removing the absent "S" from a fresh controller is a
no-op. -/
theorem cloning_target_set_semantics_witness :
    ("S" ∈ (runSourceOps CloningFilter.init
        [TargetOp.add "S", TargetOp.add "S",
         TargetOp.remove "X"]).sourceEndpoints ↔
      netTracked [TargetOp.add "S", TargetOp.add "S", TargetOp.remove "X"]
        false "S" = true) ∧
    removeSourceTarget CloningFilter.init "S" = CloningFilter.init := by
  have h := cloning_target_set_semantics
    [TargetOp.add "S", TargetOp.add "S", TargetOp.remove "X"] "S"
    CloningFilter.init
  exact ⟨h.1, h.2.2.2.2.1 (by decide)⟩

/-- Helper: every single controller call preserves the pairing invariant. -/
theorem applyCloneOp_invariant (cf : CloningFilter) (op : CloneOp)
    (h : CloningInvariant cf) : CloningInvariant (applyCloneOp cf op) := by
  obtain ⟨hsl, hsn, hsi, hsb, hdl, hdn, hdi, hdb, hv⟩ := h
  cases op with
  | src top =>
    cases top with
    | add n =>
      by_cases hmem : n ∈ cf.sourceEndpoints
      · simp only [applyCloneOp, applySourceOp, addSourceTarget, if_pos hmem]
        exact ⟨hsl, hsn, hsi, hsb, hdl, hdn, hdi, hdb, hv⟩
      · simp only [applyCloneOp, applySourceOp, addSourceTarget, if_neg hmem]
        dsimp only [CloningInvariant]
        refine ⟨by simp [hsl], ?_, ?_, ?_, hdl, hdn, hdi, ?_, hv⟩
        · exact hsn.append (List.nodup_singleton n)
            (List.disjoint_singleton.mpr hmem)
        · refine hsi.append (List.nodup_singleton _)
            (List.disjoint_singleton.mpr ?_)
          intro hcontra
          exact absurd (hsb _ hcontra) (lt_irrefl _)
        · intro i hi
          rcases List.mem_append.mp hi with h1 | h1
          · have := hsb i h1; omega
          · simp only [List.mem_singleton] at h1; omega
        · intro i hi
          have := hdb i hi; omega
    | remove n =>
      by_cases hmem : n ∈ cf.sourceEndpoints
      · simp only [applyCloneOp, applySourceOp, removeSourceTarget,
          if_pos hmem]
        have hidx : cf.sourceEndpoints.indexOf n <
            cf.sourceEndpoints.length := List.indexOf_lt_length.mpr hmem
        have hidx2 : cf.sourceEndpoints.indexOf n <
            cf.sourceFilters.length := by rw [hsl]; exact hidx
        dsimp only [CloningInvariant]
        refine ⟨?_, hsn.erase n, (List.eraseIdx_sublist _ _).nodup hsi, ?_,
          hdl, hdn, hdi, hdb, hv⟩
        · have h1 := List.length_eraseIdx_add_one hidx2
          have h2 := List.length_erase_of_mem hmem
          omega
        · intro i hi
          exact hsb i ((List.eraseIdx_sublist _ _).subset hi)
      · simp only [applyCloneOp, applySourceOp, removeSourceTarget,
          if_neg hmem]
        exact ⟨hsl, hsn, hsi, hsb, hdl, hdn, hdi, hdb, hv⟩
  | dst top =>
    cases top with
    | add n =>
      by_cases hmem : n ∈ cf.destEndpoints
      · simp only [applyCloneOp, applyDestOp, addDestinationTarget,
          if_pos hmem]
        exact ⟨hsl, hsn, hsi, hsb, hdl, hdn, hdi, hdb, hv⟩
      · simp only [applyCloneOp, applyDestOp, addDestinationTarget,
          if_neg hmem]
        dsimp only [CloningInvariant]
        refine ⟨hsl, hsn, hsi, ?_, by simp [hdl], ?_, ?_, ?_, hv⟩
        · intro i hi
          have := hsb i hi; omega
        · exact hdn.append (List.nodup_singleton n)
            (List.disjoint_singleton.mpr hmem)
        · refine hdi.append (List.nodup_singleton _)
            (List.disjoint_singleton.mpr ?_)
          intro hcontra
          exact absurd (hdb _ hcontra) (lt_irrefl _)
        · intro i hi
          rcases List.mem_append.mp hi with h1 | h1
          · have := hdb i h1; omega
          · simp only [List.mem_singleton] at h1; omega
    | remove n =>
      by_cases hmem : n ∈ cf.destEndpoints
      · simp only [applyCloneOp, applyDestOp, removeDestinationTarget,
          if_pos hmem]
        have hidx : cf.destEndpoints.indexOf n < cf.destEndpoints.length :=
          List.indexOf_lt_length.mpr hmem
        have hidx2 : cf.destEndpoints.indexOf n < cf.destFilters.length := by
          rw [hdl]; exact hidx
        dsimp only [CloningInvariant]
        refine ⟨hsl, hsn, hsi, hsb, ?_, hdn.erase n,
          (List.eraseIdx_sublist _ _).nodup hdi, ?_, hv⟩
        · have h1 := List.length_eraseIdx_add_one hidx2
          have h2 := List.length_erase_of_mem hmem
          omega
        · intro i hi
          exact hdb i ((List.eraseIdx_sublist _ _).subset hi)
      · simp only [applyCloneOp, applyDestOp, removeDestinationTarget,
          if_neg hmem]
        exact ⟨hsl, hsn, hsi, hsb, hdl, hdn, hdi, hdb, hv⟩
  | deliv top =>
    cases top with
    | add n =>
      by_cases hmem : n ∈ cf.deliveryEndpoints
      · simp only [applyCloneOp, applyDeliveryOp, addDeliveryEndpoint,
          if_pos hmem]
        exact ⟨hsl, hsn, hsi, hsb, hdl, hdn, hdi, hdb, hv⟩
      · simp only [applyCloneOp, applyDeliveryOp, addDeliveryEndpoint,
          if_neg hmem]
        exact ⟨hsl, hsn, hsi, hsb, hdl, hdn, hdi, hdb,
          hv.append (List.nodup_singleton n)
            (List.disjoint_singleton.mpr hmem)⟩
    | remove n =>
      by_cases hmem : n ∈ cf.deliveryEndpoints
      · simp only [applyCloneOp, applyDeliveryOp, removeDeliveryEndpoint,
          if_pos hmem]
        exact ⟨hsl, hsn, hsi, hsb, hdl, hdn, hdi, hdb, hv.erase n⟩
      · simp only [applyCloneOp, applyDeliveryOp, removeDeliveryEndpoint,
          if_neg hmem]
        exact ⟨hsl, hsn, hsi, hsb, hdl, hdn, hdi, hdb, hv⟩

/-- Claim C8: every single add/remove call preserves the controller pairing
invariant — equal cardinality and positional correspondence of the source id
and name vectors, likewise for the destination vectors, and a duplicate-free
delivery set — and every state reachable from a fresh controller satisfies
it. -/
theorem cloning_pairing_invariant (cf : CloningFilter) (op : CloneOp)
    (ops : List CloneOp) (hInv : CloningInvariant cf) :
    CloningInvariant (applyCloneOp cf op) ∧
    CloningInvariant (runCloneOps CloningFilter.init ops) := by
  refine ⟨applyCloneOp_invariant cf op hInv, ?_⟩
  have hinit : CloningInvariant CloningFilter.init := by
    refine ⟨rfl, List.nodup_nil, List.nodup_nil, ?_, rfl, List.nodup_nil,
      List.nodup_nil, ?_, List.nodup_nil⟩ <;> intro i hi <;> cases hi
  have hrun : ∀ start : CloningFilter, CloningInvariant start →
      CloningInvariant (runCloneOps start ops) := by
    induction ops with
    | nil => exact fun start h => h
    | cons o rest ih =>
      intro start h
      simp only [runCloneOps, List.foldl_cons] at *
      exact ih (applyCloneOp start o) (applyCloneOp_invariant start o h)
  exact hrun CloningFilter.init hinit

/-- Concrete instance of claim C8: the invariant holds after one add, and for
the state reached by adding two sources, a destination, a delivery endpoint
and removing one source. -/
theorem cloning_pairing_invariant_witness :
    CloningInvariant (applyCloneOp CloningFilter.init
      (CloneOp.src (TargetOp.add "S"))) ∧
    CloningInvariant (runCloneOps CloningFilter.init
      [CloneOp.src (TargetOp.add "S"), CloneOp.src (TargetOp.add "T"),
       CloneOp.dst (TargetOp.add "D"), CloneOp.deliv (TargetOp.add "A"),
       CloneOp.src (TargetOp.remove "S")]) :=
  cloning_pairing_invariant CloningFilter.init
    (CloneOp.src (TargetOp.add "S"))
    [CloneOp.src (TargetOp.add "S"), CloneOp.src (TargetOp.add "T"),
     CloneOp.dst (TargetOp.add "D"), CloneOp.deliv (TargetOp.add "A"),
     CloneOp.src (TargetOp.remove "S")]
    (by refine ⟨rfl, List.nodup_nil, List.nodup_nil, ?_, rfl,
          List.nodup_nil, List.nodup_nil, ?_, List.nodup_nil⟩ <;>
        intro i hi <;> cases hi)

/-- Claim C3: on every handle holding no collaborator and no attached
operations object (as a default-constructed handle does), all four getters
return the empty-string default, `set`/`setString` leave the handle
unchanged, and `setOperator` issues nothing and leaves the handle unchanged;
all are total functions, so no call fails. -/
theorem invalid_handle_quiet_failure (f : Filter) (hc : f.corePtr = none)
    (ho : f.filtOp = none) :
    f.getTarget = "" ∧ f.getName = "" ∧ f.getInputType = "" ∧
    f.getOutputType = "" ∧
    (∀ property val, f.set property val = f) ∧
    (∀ property val, f.setString property val = f) ∧
    (∀ mo, f.setOperator mo = (f, none)) := by
  refine ⟨?_, ?_, ?_, ?_, ?_, ?_, ?_⟩
  · simp [Filter.getTarget, hc]
  · simp [Filter.getName, hc]
  · simp [Filter.getInputType, hc]
  · simp [Filter.getOutputType, hc]
  · intro property val; simp [Filter.set, ho]
  · intro property val; simp [Filter.setString, ho]
  · intro mo; simp [Filter.setOperator, hc]

/-- Concrete instance of claim C3: the default-constructed handle is inert. -/
theorem invalid_handle_quiet_failure_witness :
    Filter.defaultHandle.getTarget = "" ∧
    Filter.defaultHandle.set "delay" 2 = Filter.defaultHandle ∧
    (Filter.defaultHandle.setOperator (fun m => [m])).2 = none := by
  have h := invalid_handle_quiet_failure Filter.defaultHandle rfl rfl
  exact ⟨h.1, h.2.2.2.2.1 "delay" 2,
    congrArg Prod.snd (h.2.2.2.2.2.2 (fun m => [m]))⟩

/-- Claim C9: a delay-type source filter on target "E" with numeric property
"delay" set to 2 schedules a message arriving at virtual time 5 for
redelivery at virtual time 7, with the payload unchanged and the remaining
chain position preserved. -/
theorem delay_filter_schedules_redelivery (cr : Core) (m : Message)
    (rest : List FilterOperations) :
    ∃ fo : FilterOperations,
      ((make_source_filter defined_filter_types.delay cr "E" "").set
          "delay" 2).filtOp = some fo ∧
      ((make_source_filter defined_filter_types.delay cr "E"
          "").targetEndpoint = "E") ∧
      fo.kind = defined_filter_types.delay ∧
      applyDelayFilter fo rest 5 m =
        { dueTime := 7, msg := m, remainingChain := rest } := by
  refine ⟨{ kind := defined_filter_types.delay
            numericProps := [("delay", 2)]
            stringProps := [] }, rfl, rfl, rfl, ?_⟩
  simp only [applyDelayFilter, getNumericProp, List.lookup]
  norm_num

/-- Claim C1: with the controller tracking source "S" and delivery set "A",
"B", "C", every message crossing "S" yields exactly 3 duplicates, one per
delivery name, each carrying the same payload; the original message and its
delivery are unchanged; and the duplicates are independent copies — mutating
the payload of one changes that copy and leaves every other duplicate (and
the original) untouched. -/
theorem cloning_fanout_three_duplicates (m : Message) (p : List Nat)
    (i j : Nat) (hi : i < 3) (hj : j < 3) (hij : i ≠ j) :
    "S" ∈ sampleCloningController.sourceEndpoints ∧
    sampleCloningController.deliveryEndpoints = ["A", "B", "C"] ∧
    (cloneDispatch sampleCloningController m).1 = m ∧
    (cloneDispatch sampleCloningController m).2.length = 3 ∧
    (∀ c ∈ (cloneDispatch sampleCloningController m).2, c.data = m.data) ∧
    (cloneDispatch sampleCloningController m).2.map Message.dest =
      ["A", "B", "C"] ∧
    ((cloneDispatch sampleCloningController m).2.set i
        (withPayload ((cloneDispatch sampleCloningController m).2.getD i m)
          p))[i]? =
      some (withPayload
        ((cloneDispatch sampleCloningController m).2.getD i m) p) ∧
    ((cloneDispatch sampleCloningController m).2.set i
        (withPayload ((cloneDispatch sampleCloningController m).2.getD i m)
          p))[j]? =
      (cloneDispatch sampleCloningController m).2[j]? := by
  have hclones : (cloneDispatch sampleCloningController m).2 =
      [{ m with dest := "A" }, { m with dest := "B" },
       { m with dest := "C" }] := rfl
  refine ⟨by decide, rfl, rfl, rfl, ?_, rfl, ?_, ?_⟩
  · intro c hc
    rw [hclones] at hc
    simp only [List.mem_cons, List.not_mem_nil, or_false] at hc
    rcases hc with h | h | h <;> subst h <;> rfl
  · rw [hclones]
    interval_cases i <;> rfl
  · rw [hclones]
    interval_cases i <;> interval_cases j <;> first | rfl | exact absurd rfl hij

/-- Concrete instance of claim C1: mutating the payload of the first
duplicate changes it and leaves the second duplicate as produced. -/
theorem cloning_fanout_three_duplicates_witness :
    (cloneDispatch sampleCloningController sampleMessage).2.length = 3 ∧
    ((cloneDispatch sampleCloningController sampleMessage).2.set 0
        (withPayload
          ((cloneDispatch sampleCloningController sampleMessage).2.getD 0
            sampleMessage) [9]))[1]? =
      (cloneDispatch sampleCloningController sampleMessage).2[1]? := by
  have h := cloning_fanout_three_duplicates sampleMessage [9] 0 1
    (by decide) (by decide) (by decide)
  exact ⟨h.2.2.2.1, h.2.2.2.2.2.2.2⟩

end helics
